import Mathlib

/-!
Verification of the ADIF parser (`src/parse_adif.py`) against its
specification.  The Python module is shallowly embedded: strings become
`List Char`, the opened file object becomes an explicit `FileStream`
(a list of lines plus a cursor), the regular expression
`^.*<TAG:\d+>([^<]*)<.*$` compiled with `re.IGNORECASE` becomes the
recursive scanner `extractLine` (the greedy leading `.*` picks the last
position at which the remainder of the pattern matches), exceptions
become `Option`/`Except`, and the pandas `DataFrame` becomes a list of
`Row`s built by positionally zipping the per-tag extraction columns.
-/

/-- Python strings, embedded as lists of characters. -/
abbrev Str : Type := List Char

/-- A Lean string literal as an embedded Python string. -/
def chars (s : String) : Str := s.data

/-- The characters `str.strip()` removes (Python whitespace). -/
def pySpace (c : Char) : Bool :=
  c = ' ' || c = '\t' || c = '\n' || c = '\r' || c = '\x0b' || c = '\x0c'

/-- Python `s.strip()`: drop whitespace from both ends. -/
def pyStrip (s : Str) : Str :=
  ((s.dropWhile pySpace).reverse.dropWhile pySpace).reverse

/-- Case-insensitive literal match of `tag` at the head of a string
(`re.IGNORECASE` on the letters of the column name interpolated into the
pattern); returns the rest of the string on success. -/
def ciStrip : Str → Str → Option Str
  | [], s => some s
  | _ :: _, [] => none
  | a :: as, b :: bs => if a.toLower = b.toLower then ciStrip as bs else none

/-- Attempt to read the marker `<TAG:\d+>` at the head of `s`
(case-insensitively on `TAG`); returns what follows the `>`.
`\d+` must match at least one digit and the next character must be `>`
(`>` is not a digit, so the greedy maximal digit run is the only
candidate the regex engine can use). -/
def matchMarkerAt (tag : Str) (s : Str) : Option Str :=
  match s with
  | [] => none
  | c :: rest =>
    if c = '<' then
      match ciStrip tag rest with
      | some (':' :: r2) =>
        let ds := r2.takeWhile Char.isDigit
        let r3 := r2.dropWhile Char.isDigit
        if ds.isEmpty then none
        else
          match r3 with
          | '>' :: r4 => some r4
          | _ => none
      | _ => none
    else none

/-- The value captured by `<TAG:\d+>([^<]*)<` when the marker starts
exactly at the head of `s`: the run of non-`<` characters after the
marker, valid only if a further `<` follows it. -/
def markerValueAt (tag : Str) (s : Str) : Option Str :=
  match matchMarkerAt tag s with
  | none => none
  | some r =>
    match r.dropWhile (fun c => c != '<') with
    | [] => none
    | _ :: _ => some (r.takeWhile (fun c => c != '<'))

/-- `re.match('^.*<TAG:\d+>([^<]*)<.*$', line, re.IGNORECASE)`, returning
the captured group: the greedy `^.*` makes the engine choose the last
start position at which the rest of the pattern matches, so later
positions are preferred. -/
def extractLine (tag : Str) : Str → Option Str
  | [] => none
  | c :: rest =>
    match extractLine tag rest with
    | some v => some v
    | none => markerValueAt tag (c :: rest)

/-- An open text file: its lines and the read cursor (`seek(0)` resets
the cursor; iterating reads the lines from the cursor on and leaves the
cursor at the end). -/
structure FileStream where
  lines : List Str
  cursor : Nat
deriving DecidableEq

/-- `extract_adif_column(adif_file, column_name)`: match the pattern on
every line from the cursor on, strip each captured value, `seek(0)`, and
return the list of matches, or `None` when it is empty.  The returned
stream is the file object after the call (cursor reset to the start). -/
def extract_adif_column (adif_file : FileStream) (column_name : Str) :
    Option (List Str) × FileStream :=
  let ms := (adif_file.lines.drop adif_file.cursor).filterMap (extractLine column_name)
  let found := ms.map pyStrip
  (if found.length > 0 then some found else none, FileStream.mk adif_file.lines 0)

def OPERATOR_COLUMN_NAME : Str := chars "OPERATOR"
def DATE_COLUMN_NAME : Str := chars "QSO_DATE"
def CALL_COLUMN_NAME : Str := chars "CALL"
def TIME_COLUMN_NAME : Str := chars "TIME_ON"
def MODE_COLUMN_NAME : Str := chars "MODE"
def BAND_COLUMN_NAME : Str := chars "BAND"

/-- One row of the assembled DataFrame: one optional value per configured
column (a column whose extraction returned `None` is `none` in every
row), the extra caller-supplied columns, and the source file's base
name. -/
structure Row where
  operator : Option Str
  date : Option Str
  time : Option Str
  call : Option Str
  mode : Option Str
  band : Option Str
  extras : List (Str × Option Str)
  filename : Str
deriving DecidableEq

/-- `os.path.basename`: the part of the path after the last `/`. -/
def basename (s : Str) : Str := (s.reverse.takeWhile (fun c => c != '/')).reverse

/-- The `pd.DataFrame({...})` constructor call of `parse_adif`: list
values must all have the same length (else `ValueError`), `None` values
are scalars broadcast to a whole-`none` column, and with no list value at
all the all-scalar dictionary raises.  `none` is the raised exception
(caught by the bare `except`). -/
def makeDataFrame (operatorCol dateCol timeCol callCol modeCol bandCol :
    Option (List Str)) (fname : Str) : Option (List Row) :=
  match ([operatorCol, dateCol, timeCol, callCol, modeCol, bandCol].filterMap id) with
  | [] => none
  | l :: ls =>
    if ls.all (fun x => x.length == l.length) then
      some ((List.range l.length).map (fun i => Row.mk
        (operatorCol.map (fun xs => xs.getD i []))
        (dateCol.map (fun xs => xs.getD i []))
        (timeCol.map (fun xs => xs.getD i []))
        (callCol.map (fun xs => xs.getD i []))
        (modeCol.map (fun xs => xs.getD i []))
        (bandCol.map (fun xs => xs.getD i []))
        [] fname))
    else none

/-- The `for column in extra_columns: df[column] = ...` loop: a `None`
extraction sets the whole column to `None`; a list must match the number
of rows (else `ValueError`, i.e. `none`). -/
def addExtras : List Row → FileStream → List Str → Option (List Row)
  | df, _, [] => some df
  | df, f, c :: rest =>
    match extract_adif_column f c with
    | (none, f1) =>
      addExtras (df.map (fun r => { r with extras := r.extras ++ [(c, none)] })) f1 rest
    | (some l, f1) =>
      if l.length = df.length then
        addExtras ((df.zip l).map
          (fun p => { p.1 with extras := p.1.extras ++ [(c, some p.2)] })) f1 rest
      else none

/-- The `try` block of `parse_adif` run on the opened file's lines: the
six columns are extracted in the dictionary's evaluation order (each
call reads from the cursor and seeks back to 0), the DataFrame is built,
and the extra columns are added; `none` is the `None` returned by the
bare `except` when any of that raises. -/
def parse_adif_try (ls : List Str) (filename : Str) (extra_columns : List Str) :
    Option (List Row) :=
  let adif_file : FileStream := FileStream.mk ls 0
  let r1 := extract_adif_column adif_file OPERATOR_COLUMN_NAME
  let r2 := extract_adif_column r1.2 DATE_COLUMN_NAME
  let r3 := extract_adif_column r2.2 TIME_COLUMN_NAME
  let r4 := extract_adif_column r3.2 CALL_COLUMN_NAME
  let r5 := extract_adif_column r4.2 MODE_COLUMN_NAME
  let r6 := extract_adif_column r5.2 BAND_COLUMN_NAME
  match makeDataFrame r1.1 r2.1 r3.1 r4.1 r5.1 r6.1 (basename filename) with
  | none => none
  | some df => addExtras df r6.2 extra_columns

/-- `parse_adif(filename, extra_columns)`: the filesystem is a partial
map from paths to file contents; `open` on an unmapped path raises, and
that call stands before the `try`, so the exception escapes
(`Except.error ()`).  With the file open, the `try` block runs and its
result (a DataFrame, or `None` for a swallowed exception) is
returned. -/
def parse_adif (fs : Str → Option (List Str)) (filename : Str)
    (extra_columns : List Str) : Except Unit (Option (List Row)) :=
  match fs filename with
  | none => Except.error ()
  | some ls => Except.ok (parse_adif_try ls filename extra_columns)

/-- Python `s.endswith(t)` for a single suffix. -/
def endswith (s t : Str) : Bool := s.drop (s.length - t.length) == t

/-- `filename.endswith(('.adi', '.ADI'))`: the file-selection test of
`get_all_logs_in_parent`. -/
def selectsFile (filename : Str) : Bool :=
  endswith filename (chars ".adi") || endswith filename (chars ".ADI")

/-- `os.path.join(root, filename)` for the simple relative case the walk
produces. -/
def joinPath (root name : Str) : Str := root ++ '/' :: name

/-- `get_all_logs_in_parent(root_path)`: the walk is embedded as the
discovery-ordered list of `(root, filename)` pairs it yields.  Each
selected file is parsed and concatenated (`pd.concat` drops a `None`
silently); an exception raised by `parse_adif` propagates. -/
def get_all_logs_in_parent (fs : Str → Option (List Str)) :
    List (Str × Str) → Except Unit (List Row)
  | [] => Except.ok []
  | (root, name) :: rest =>
    if selectsFile name then
      match parse_adif fs (joinPath root name) [] with
      | Except.error e => Except.error e
      | Except.ok none => get_all_logs_in_parent fs rest
      | Except.ok (some df) =>
        match get_all_logs_in_parent fs rest with
        | Except.error e => Except.error e
        | Except.ok tail => Except.ok (df ++ tail)
    else get_all_logs_in_parent fs rest

/-- One diagnostic line printed by `store_to_csv`:
`print(numFaulty, "\t", row['filename'], "lacks <word>")`. -/
structure CsvMsg where
  count : Nat
  filename : Str
  column : Str
deriving DecidableEq

/-- The body of the `for i, row in pd.iterrows()` loop of
`store_to_csv`: substitute missing checked fields (note the literal
`"Uknown"` for the operator and the `"lacks call"` messages for the band
and the date), then write the record line; `row['time']` is concatenated
unchecked, so a missing time raises `TypeError` (`none`). -/
def processRow (row : Row) (n0 : Nat) : Option (Str × Nat × List CsvMsg) :=
  let (op, n1, m1) :=
    match row.operator with
    | some v => (v, n0, ([] : List CsvMsg))
    | none => (chars "Uknown", n0 + 1, [CsvMsg.mk (n0 + 1) row.filename (chars "operator")])
  let (md, n2, m2) :=
    match row.mode with
    | some v => (v, n1, ([] : List CsvMsg))
    | none => (chars "Unknown", n1 + 1, [CsvMsg.mk (n1 + 1) row.filename (chars "mode")])
  let (cl, n3, m3) :=
    match row.call with
    | some v => (v, n2, ([] : List CsvMsg))
    | none => (chars "Unknown", n2 + 1, [CsvMsg.mk (n2 + 1) row.filename (chars "call")])
  let (bd, n4, m4) :=
    match row.band with
    | some v => (v, n3, ([] : List CsvMsg))
    | none => (chars "Unknown", n3 + 1, [CsvMsg.mk (n3 + 1) row.filename (chars "call")])
  let (dt, n5, m5) :=
    match row.date with
    | some v => (v, n4, ([] : List CsvMsg))
    | none => (chars "Unknown", n4 + 1, [CsvMsg.mk (n4 + 1) row.filename (chars "call")])
  match row.time with
  | none => none
  | some t =>
    some (dt ++ chars ",\t" ++ t ++ chars ",\t" ++ op ++ chars ",\t" ++ bd
            ++ chars ",\t" ++ md ++ chars ",\t" ++ cl ++ chars "\n",
          n5, m1 ++ m2 ++ m3 ++ m4 ++ m5)

/-- The row loop of `store_to_csv`, threading the fault counter:
the written record lines, the final counter and the printed messages, or
`none` if some row raised. -/
def storeRows : List Row → Nat → Option (Str × Nat × List CsvMsg)
  | [], n => some ([], n, [])
  | r :: rest, n =>
    match processRow r n with
    | none => none
    | some (line, n1, ms) =>
      match storeRows rest n1 with
      | none => none
      | some (content, n2, ms2) => some (line ++ content, n2, ms ++ ms2)

/-- `store_to_csv(pd, outfile)`: the header line, then one line per row;
the result is the full written file content, the final fault counter and
the diagnostic messages, or `none` if the export raised. -/
def store_to_csv (rows : List Row) : Option (Str × Nat × List CsvMsg) :=
  match storeRows rows 0 with
  | none => none
  | some (content, n, ms) =>
    some (chars "date, time, operator, band, mode, call\n" ++ content, n, ms)

/-- The six per-tag extraction results `parse_adif` computes for a file
content, in the dictionary's order. -/
def sixColumns (ls : List Str) : List (Option (List Str)) :=
  [(extract_adif_column (FileStream.mk ls 0) OPERATOR_COLUMN_NAME).1,
   (extract_adif_column (FileStream.mk ls 0) DATE_COLUMN_NAME).1,
   (extract_adif_column (FileStream.mk ls 0) TIME_COLUMN_NAME).1,
   (extract_adif_column (FileStream.mk ls 0) CALL_COLUMN_NAME).1,
   (extract_adif_column (FileStream.mk ls 0) MODE_COLUMN_NAME).1,
   (extract_adif_column (FileStream.mk ls 0) BAND_COLUMN_NAME).1]

/-- The record line `store_to_csv` writes for a row whose six fields are
all present. -/
def fullLine (r : Row) : Str :=
  r.date.getD [] ++ chars ",\t" ++ r.time.getD [] ++ chars ",\t"
    ++ r.operator.getD [] ++ chars ",\t" ++ r.band.getD [] ++ chars ",\t"
    ++ r.mode.getD [] ++ chars ",\t" ++ r.call.getD [] ++ chars "\n"

/-- The content of a well-formed single-QSO ADIF log, one field per
line. -/
def goodLines : List Str :=
  [chars "<OPERATOR:3>OP1<eor>", chars "<QSO_DATE:8>20230101<eor>",
   chars "<TIME_ON:4>1200<eor>", chars "<CALL:4>W1AW<eor>",
   chars "<MODE:2>CW<eor>", chars "<BAND:3>20M<eor>"]

/-- A two-file directory tree: `./good.adi` parses to one record,
`./bad.adi` has no markers at all, so its all-scalar DataFrame
construction raises and is swallowed. -/
def demoFs : Str → Option (List Str) := fun p =>
  if p = chars "./good.adi" then some goodLines
  else if p = chars "./bad.adi" then some [chars "this file has no adif markers"]
  else none

/-- The one record `./good.adi` contributes. -/
def goodRow : Row :=
  Row.mk (some (chars "OP1")) (some (chars "20230101")) (some (chars "1200"))
    (some (chars "W1AW")) (some (chars "CW")) (some (chars "20M")) [] (chars "good.adi")

/-- A file whose `CALL` column extracts two values but whose `BAND`
column extracts one: the DataFrame constructor's unequal-length error is
raised and swallowed. -/
def misLines : List Str :=
  [chars "<CALL:1>A<", chars "<CALL:1>B<", chars "<BAND:3>20M<"]

/-- A one-file filesystem holding `misLines` at `c.adi`. -/
def misFs : Str → Option (List Str) := fun p =>
  if p = chars "c.adi" then some misLines else none

/-! ## Helper lemmas -/

lemma ciStrip_suffix (tag : Str) : ∀ (s r : Str), ciStrip tag s = some r → r <:+ s := by
  induction tag with
  | nil =>
    intro s r h
    simp only [ciStrip, Option.some.injEq] at h
    subst h
    exact List.suffix_refl _
  | cons a as ih =>
    intro s r h
    cases s with
    | nil => simp [ciStrip] at h
    | cons b bs =>
      simp only [ciStrip] at h
      split at h
      · exact (ih bs r h).trans (List.suffix_cons b bs)
      · simp at h

lemma dropWhileSuffix (p : Char → Bool) (l : Str) : l.dropWhile p <:+ l := by
  induction l with
  | nil => exact List.suffix_refl _
  | cons a as ih =>
    cases h : p a with
    | true =>
      simp only [List.dropWhile, h]
      exact ih.trans (List.suffix_cons a as)
    | false =>
      simp only [List.dropWhile, h]
      exact List.suffix_refl _

lemma matchMarkerAt_shape (tag : Str) (s r : Str) (h : matchMarkerAt tag s = some r) :
    ∃ rest, s = '<' :: rest ∧ r <:+ rest := by
  cases s with
  | nil => simp [matchMarkerAt] at h
  | cons c cs =>
    simp only [matchMarkerAt] at h
    split at h
    case isTrue hc =>
      subst hc
      refine ⟨cs, rfl, ?_⟩
      split at h
      case h_1 r1 heq =>
        have h1 : (':' :: r1) <:+ cs := ciStrip_suffix tag cs _ heq
        split at h
        · simp at h
        · split at h
          case h_1 r4 heq2 =>
            have h2 : r4 <:+ r1 := by
              have h3 := dropWhileSuffix Char.isDigit r1
              rw [heq2] at h3
              exact (List.suffix_cons '>' r4).trans h3
            have h3 : r1 <:+ cs := (List.suffix_cons ':' r1).trans h1
            have hr : r = r4 := by
              simp only [Option.some.injEq] at h
              exact h.symm
            rw [hr]
            exact h2.trans h3
          case h_2 => simp at h
      case h_2 => simp at h
    case isFalse => simp at h

lemma matchMarkerAt_head (tag : Str) (c : Char) (cs : Str) (hc : ¬ c = '<') :
    matchMarkerAt tag (c :: cs) = none := by
  simp [matchMarkerAt, hc]

lemma markerValueAt_head (tag : Str) (c : Char) (cs : Str) (hc : ¬ c = '<') :
    markerValueAt tag (c :: cs) = none := by
  simp [markerValueAt, matchMarkerAt_head tag c cs hc]

lemma extractLine_no_lt (tag : Str) : ∀ s : Str, '<' ∉ s → extractLine tag s = none := by
  intro s
  induction s with
  | nil => intro _; rfl
  | cons c cs ih =>
    intro h
    have hc : ¬ c = '<' := fun e => h (by simp [e])
    have hcs : '<' ∉ cs := fun m => h (by simp [m])
    simp [extractLine, ih hcs, markerValueAt_head tag c cs hc]

lemma dropWhile_nil_of_all (p : Char → Bool) (l : Str) (h : ∀ x ∈ l, p x = true) :
    l.dropWhile p = [] := List.dropWhile_eq_nil_iff.mpr (by simpa using h)

lemma markerValueAt_no_lt (tag : Str) (w : Str) (hw : '<' ∉ w) :
    markerValueAt tag ('<' :: w) = none := by
  cases h : matchMarkerAt tag ('<' :: w) with
  | none => simp [markerValueAt, h]
  | some r =>
    obtain ⟨rest, he, hsuf⟩ := matchMarkerAt_shape tag _ r h
    have hrw : rest = w := by injection he with _ h2; exact h2.symm
    subst hrw
    have hr : '<' ∉ r := fun m => hw (hsuf.subset m)
    have hdrop : r.dropWhile (fun c => c != '<') = [] := by
      refine dropWhile_nil_of_all _ _ (fun x hx => ?_)
      have hne : ¬ x = '<' := fun e => hr (e ▸ hx)
      simp [hne]
    simp [markerValueAt, h, hdrop]

lemma extractLine_single (tag : Str) (w : Str) (hw : '<' ∉ w) :
    ∀ u : Str, '<' ∉ u → extractLine tag (u ++ '<' :: w) = none := by
  intro u
  induction u with
  | nil =>
    intro _
    simp [extractLine, extractLine_no_lt tag w hw, markerValueAt_no_lt tag w hw]
  | cons c cs ih =>
    intro h
    have hc : ¬ c = '<' := fun e => h (by simp [e])
    have hcs : '<' ∉ cs := fun m => h (by simp [m])
    simp [extractLine, ih hcs, markerValueAt_head tag c _ hc]

lemma extractLine_append_some (tag : Str) (l1 l2 : Str) (v : Str)
    (h : extractLine tag l2 = some v) : extractLine tag (l1 ++ l2) = some v := by
  induction l1 with
  | nil => simpa using h
  | cons c rest ih =>
    rw [List.cons_append]
    simp [extractLine, ih]

lemma ciStrip_of_lower : ∀ (tag tagv : Str),
    tagv.map Char.toLower = tag.map Char.toLower →
    ∀ s : Str, ciStrip tag (tagv ++ s) = some s := by
  intro tag
  induction tag with
  | nil =>
    intro tagv h s
    cases tagv with
    | nil => rfl
    | cons b bs => simp at h
  | cons a as ih =>
    intro tagv h s
    cases tagv with
    | nil => simp at h
    | cons b bs =>
      simp only [List.map_cons, List.cons.injEq] at h
      obtain ⟨h1, h2⟩ := h
      simp [ciStrip, h1, ih bs h2]

lemma takeWhile_append_of_all (p : Char → Bool) (u : Str) (y : Char) (ys : Str)
    (hu : ∀ x ∈ u, p x = true) (hy : p y = false) :
    (u ++ y :: ys).takeWhile p = u ∧ (u ++ y :: ys).dropWhile p = y :: ys := by
  induction u with
  | nil => simp [List.takeWhile, List.dropWhile, hy]
  | cons a as ih =>
    have ha : p a = true := hu a (by simp)
    have hrec := ih (fun x hx => hu x (by simp [hx]))
    simp [List.takeWhile_cons, List.dropWhile_cons, ha, hrec.1, hrec.2]

lemma extractLine_marker (tag tagv d v b : Str)
    (hlow : tagv.map Char.toLower = tag.map Char.toLower)
    (htagv : '<' ∉ tagv)
    (hd : d ≠ []) (hdd : ∀ c ∈ d, c.isDigit = true)
    (hv : '<' ∉ v) (hb : '<' ∉ b) :
    extractLine tag ('<' :: (tagv ++ ':' :: (d ++ '>' :: (v ++ '<' :: b)))) = some v := by
  have hdlt : '<' ∉ d := fun m => absurd (hdd _ m) (by decide)
  have htail : extractLine tag (tagv ++ ':' :: (d ++ '>' :: (v ++ '<' :: b))) = none := by
    have hshape : tagv ++ ':' :: (d ++ '>' :: (v ++ '<' :: b))
        = (tagv ++ ':' :: (d ++ '>' :: v)) ++ '<' :: b := by
      simp [List.append_assoc]
    rw [hshape]
    refine extractLine_single tag b hb _ ?_
    intro m
    simp only [List.mem_append, List.mem_cons] at m
    rcases m with h1 | h2 | h3 | h4 | h5
    · exact htagv h1
    · exact absurd h2 (by decide)
    · exact hdlt h3
    · exact absurd h4 (by decide)
    · exact hv h5
  have hstrip : ciStrip tag (tagv ++ ':' :: (d ++ '>' :: (v ++ '<' :: b)))
      = some (':' :: (d ++ '>' :: (v ++ '<' :: b))) := ciStrip_of_lower tag tagv hlow _
  have hdig := takeWhile_append_of_all Char.isDigit d '>' (v ++ '<' :: b) hdd (by decide)
  have hval := takeWhile_append_of_all (fun c => c != '<') v '<' b
      (fun x hx => by
        have hne : ¬ x = '<' := fun e => hv (e ▸ hx)
        simp [hne])
      (by decide)
  have hmm : matchMarkerAt tag ('<' :: (tagv ++ ':' :: (d ++ '>' :: (v ++ '<' :: b))))
      = some (v ++ '<' :: b) := by
    have hde : d.isEmpty = false := by
      cases d with
      | nil => exact absurd rfl hd
      | cons x xs => rfl
    simp [matchMarkerAt, hstrip, hdig.1, hdig.2, hde]
  have hmv : markerValueAt tag ('<' :: (tagv ++ ':' :: (d ++ '>' :: (v ++ '<' :: b))))
      = some v := by
    simp [markerValueAt, hmm, hval.1, hval.2]
  simp [extractLine, htail, hmv]

lemma filterMap_none (f : Str → Option Str) : ∀ l : List Str,
    (∀ x ∈ l, f x = none) → l.filterMap f = [] := by
  intro l h
  induction l with
  | nil => rfl
  | cons a as ih =>
    have ha := h a (by simp)
    simp [List.filterMap_cons, ha, ih (fun x hx => h x (by simp [hx]))]

lemma extract_adif_column_snd (f : FileStream) (t : Str) :
    (extract_adif_column f t).2 = FileStream.mk f.lines 0 := rfl

lemma endswith_iff (s t : Str) : endswith s t = true ↔ t <:+ s := by
  unfold endswith
  rw [List.suffix_iff_eq_drop, beq_iff_eq]
  exact eq_comm

lemma makeDataFrame_none (o d t c m bd : Option (List Str)) (fname : Str)
    (l1 l2 : List Str)
    (h1 : l1 ∈ [o, d, t, c, m, bd].filterMap id)
    (h2 : l2 ∈ [o, d, t, c, m, bd].filterMap id)
    (hne : l1.length ≠ l2.length) :
    makeDataFrame o d t c m bd fname = none := by
  unfold makeDataFrame
  generalize hp : [o, d, t, c, m, bd].filterMap id = present at h1 h2 ⊢
  cases present with
  | nil => simp at h1
  | cons hd tl =>
    by_cases hall : tl.all (fun x => x.length == hd.length) = true
    · exfalso
      simp only [List.all_eq_true, beq_iff_eq] at hall
      have hx : ∀ x ∈ hd :: tl, x.length = hd.length := by
        intro x hx
        rcases List.mem_cons.mp hx with he | hx2
        · rw [he]
        · exact hall x hx2
      exact hne ((hx l1 h1).trans (hx l2 h2).symm)
    · simp [hall]

lemma parse_adif_try_nil_extras (ls : List Str) (filename : Str) :
    parse_adif_try ls filename [] =
      makeDataFrame
        (extract_adif_column (FileStream.mk ls 0) OPERATOR_COLUMN_NAME).1
        (extract_adif_column (FileStream.mk ls 0) DATE_COLUMN_NAME).1
        (extract_adif_column (FileStream.mk ls 0) TIME_COLUMN_NAME).1
        (extract_adif_column (FileStream.mk ls 0) CALL_COLUMN_NAME).1
        (extract_adif_column (FileStream.mk ls 0) MODE_COLUMN_NAME).1
        (extract_adif_column (FileStream.mk ls 0) BAND_COLUMN_NAME).1
        (basename filename) := by
  simp only [parse_adif_try, extract_adif_column_snd]
  split
  case h_1 heq => rw [heq]
  case h_2 df heq => rw [heq]; rfl

/-! ## Claim theorems -/

/-- C1: for every input line containing a marker `<TAG:len>value<` (the
tag matched case-insensitively, the declared length an arbitrary
non-empty digit string that is never used for slicing, and no further
`<` after the closing one), extracting TAG from that line returns the
value between the marker and the next `<`, stripped of leading and
trailing whitespace.  In particular `<CALL:3>ABC<eor>` yields `ABC`, and
`<call:3>ABC<` and `<CALL:3>ABC<` yield identical results (see the
witness). -/
theorem extract_marker_value (tag tagv d v b a : Str)
    (hlow : tagv.map Char.toLower = tag.map Char.toLower)
    (htagv : '<' ∉ tagv)
    (hd : d ≠ []) (hdd : ∀ c ∈ d, c.isDigit = true)
    (hv : '<' ∉ v) (hb : '<' ∉ b) :
    (extract_adif_column
        (FileStream.mk [a ++ '<' :: (tagv ++ ':' :: (d ++ '>' :: (v ++ '<' :: b)))] 0)
        tag).1
      = some [pyStrip v] := by
  have h := extractLine_append_some tag a _ v
    (extractLine_marker tag tagv d v b hlow htagv hd hdd hv hb)
  simp [extract_adif_column, h]

/-- Witness for C1: the concrete cases named by the claim, `CALL` from
`<CALL:3>ABC<eor>` is `ABC`, and the lower-case and upper-case marker
lines yield the same result. -/
theorem extract_marker_value_witness :
    (extract_adif_column (FileStream.mk [chars "<CALL:3>ABC<eor>"] 0) (chars "CALL")).1
        = some [chars "ABC"]
    ∧ (extract_adif_column (FileStream.mk [chars "<call:3>ABC<"] 0) (chars "CALL")).1
        = some [chars "ABC"]
    ∧ (extract_adif_column (FileStream.mk [chars "<CALL:3>ABC<"] 0) (chars "CALL")).1
        = some [chars "ABC"] :=
  ⟨extract_marker_value (chars "CALL") (chars "CALL") (chars "3") (chars "ABC")
      (chars "eor>") [] (by decide) (by decide) (by decide) (by decide) (by decide)
      (by decide),
   extract_marker_value (chars "CALL") (chars "call") (chars "3") (chars "ABC")
      [] [] (by decide) (by decide) (by decide) (by decide) (by decide)
      (by decide),
   extract_marker_value (chars "CALL") (chars "CALL") (chars "3") (chars "ABC")
      [] [] (by decide) (by decide) (by decide) (by decide) (by decide)
      (by decide)⟩

/-- C2: a source in which the tag matches on no line yields the absent
marker `None`, while the present-but-empty source `<TAG:0><` yields a
list containing one empty string, which is distinct from the absent
marker. -/
theorem absent_tag_is_none (lines : List Str) (tag : Str)
    (h : ∀ l ∈ lines, extractLine tag l = none) :
    (extract_adif_column (FileStream.mk lines 0) tag).1 = none
    ∧ (extract_adif_column (FileStream.mk [chars "<TAG:0><"] 0) (chars "TAG")).1
        = some [([] : Str)]
    ∧ some [([] : Str)] ≠ (none : Option (List Str)) := by
  refine ⟨?_, by decide, by decide⟩
  have hnil : lines.filterMap (extractLine tag) = [] := filterMap_none _ lines h
  simp [extract_adif_column, hnil]

/-- Witness for C2: a one-line source with no marker at all yields
`None`. -/
theorem absent_tag_is_none_witness :
    (extract_adif_column (FileStream.mk [chars "hello world"] 0) (chars "CALL")).1
      = none :=
  (absent_tag_is_none [chars "hello world"] (chars "CALL") (by decide)).1

/-- C3: extraction leaves the stream's cursor at the start before
returning (the `seek(0)` stands before the result branch), so extracting
a second tag from the same already-scanned source returns the same
result as extracting it from a freshly opened source over the same
lines. -/
theorem cursor_reset_idempotent (s : FileStream) (t1 t2 : Str) :
    (extract_adif_column s t1).2.cursor = 0
    ∧ extract_adif_column (extract_adif_column s t1).2 t2
        = extract_adif_column (FileStream.mk s.lines 0) t2 :=
  ⟨rfl, rfl⟩

/-- C10: a later complete `<TAG:len>value<` occurrence on a line
determines the extracted value regardless of what stands before it (the
greedy leading `.*` of the pattern prefers the last matching start
position), and a line contributes at most that one value. -/
theorem last_marker_wins (tag l1 l2 v : Str)
    (h : extractLine tag l2 = some v) :
    extractLine tag (l1 ++ l2) = some v
    ∧ ∀ v2, extractLine tag (l1 ++ l2) = some v2 → v2 = v := by
  have h1 := extractLine_append_some tag l1 l2 v h
  exact ⟨h1, fun v2 h2 => by rw [h1] at h2; exact (Option.some.injEq _ _ ▸ h2).symm⟩

/-- Witness for C10: on `<CALL:1>A<CALL:1>B<` the extracted value is the
last marker's `B`, not the earlier `A`. -/
theorem last_marker_wins_witness :
    extractLine (chars "CALL") (chars "<CALL:1>A" ++ chars "<CALL:1>B<")
      = some (chars "B") :=
  (last_marker_wins (chars "CALL") (chars "<CALL:1>A") (chars "<CALL:1>B<")
    (chars "B") (by decide)).1

/-- C4 counterexample: an error raised by `open` (here: a path the
filesystem has no entry for) escapes `parse_adif` instead of being
turned into the `None` result — the `open` call stands before the
`try`. -/
theorem open_error_escapes :
    parse_adif (fun _ => none) (chars "missing.adi") [] = Except.error () := rfl

/-- C4 amended: once the file is open, no exception escapes `parse_adif`
— extraction and DataFrame-construction errors are swallowed by the bare
`except` and produce a normal return; but when `open` itself raises, the
exception escapes to the caller. -/
theorem parse_adif_failure_policy (fs : Str → Option (List Str)) (filename : Str)
    (ls extra : List Str) (h : fs filename = some ls) :
    (∃ r, parse_adif fs filename extra = Except.ok r)
    ∧ (∀ fs2 : Str → Option (List Str), fs2 filename = none →
        parse_adif fs2 filename extra = Except.error ()) := by
  constructor
  · refine ⟨parse_adif_try ls filename extra, ?_⟩
    simp [parse_adif, h]
  · intro fs2 h2
    simp [parse_adif, h2]

/-- Witness for C4 (amended): a concrete one-file filesystem on which
`parse_adif` returns normally. -/
theorem parse_adif_failure_policy_witness :
    ∃ r, parse_adif (fun p => if p = chars "a.adi" then some [chars "x"] else none)
        (chars "a.adi") [] = Except.ok r :=
  (parse_adif_failure_policy
    (fun p => if p = chars "a.adi" then some [chars "x"] else none)
    (chars "a.adi") [chars "x"] [] (by decide)).1

/-- C9: when two of the six configured tags are both present in a file
but their extracted value lists have different lengths, `parse_adif`
returns the swallowed-failure result `None` for the whole file. -/
theorem misaligned_columns_failure (fs : Str → Option (List Str)) (filename : Str)
    (ls l1 l2 : List Str)
    (hopen : fs filename = some ls)
    (h1 : l1 ∈ (sixColumns ls).filterMap id)
    (h2 : l2 ∈ (sixColumns ls).filterMap id)
    (hne : l1.length ≠ l2.length) :
    parse_adif fs filename [] = Except.ok none := by
  simp only [sixColumns] at h1 h2
  have hm := makeDataFrame_none _ _ _ _ _ _ (basename filename) l1 l2 h1 h2 hne
  simp [parse_adif, hopen, parse_adif_try_nil_extras, hm]

/-- Witness for C9: the file with two `CALL` values and one `BAND` value
yields `None`. -/
theorem misaligned_columns_failure_witness :
    parse_adif misFs (chars "c.adi") [] = Except.ok none :=
  misaligned_columns_failure misFs (chars "c.adi") misLines
    [chars "A", chars "B"] [chars "20M"] (by decide) (by decide) (by decide) (by decide)

/-- C5: a file whose assembly fails (the Record Assembler returns the
`None` failure marker) contributes zero records and does not abort the
walk; when every selected file opens, the aggregation raises nothing;
and on the concrete two-file tree with one well-formed and one
unparseable file the Dataset holds exactly the well-formed file's
records. -/
theorem aggregator_tolerates_failures :
    (∀ (fs : Str → Option (List Str)) (root name : Str) (rest : List (Str × Str)),
        parse_adif fs (joinPath root name) [] = Except.ok none →
        get_all_logs_in_parent fs ((root, name) :: rest) = get_all_logs_in_parent fs rest)
    ∧ (∀ (fs : Str → Option (List Str)) (files : List (Str × Str)),
        (∀ p ∈ files, selectsFile p.2 = true → (fs (joinPath p.1 p.2)).isSome = true) →
        ∃ rows, get_all_logs_in_parent fs files = Except.ok rows)
    ∧ get_all_logs_in_parent demoFs
        [(chars ".", chars "good.adi"), (chars ".", chars "bad.adi")]
      = Except.ok [goodRow] := by
  refine ⟨?_, ?_, ?_⟩
  · intro fs root name rest hp
    by_cases hs : selectsFile name
    · simp [get_all_logs_in_parent, hs, hp]
    · simp [get_all_logs_in_parent, hs]
  · intro fs files
    induction files with
    | nil => intro _; exact ⟨[], rfl⟩
    | cons p rest ih =>
      intro h
      obtain ⟨root, name⟩ := p
      obtain ⟨rows, hrows⟩ := ih (fun q hq => h q (List.mem_cons_of_mem _ hq))
      by_cases hs : selectsFile name
      · have hopen := h (root, name) (List.mem_cons_self _ _) hs
        obtain ⟨ls, hls⟩ := Option.isSome_iff_exists.mp hopen
        cases htry : parse_adif_try ls (joinPath root name) [] with
        | none =>
          exact ⟨rows, by
            simp [get_all_logs_in_parent, hs, parse_adif, hls, htry, hrows]⟩
        | some df =>
          exact ⟨df ++ rows, by
            simp [get_all_logs_in_parent, hs, parse_adif, hls, htry, hrows]⟩
      · exact ⟨rows, by simp [get_all_logs_in_parent, hs, hrows]⟩
  · rfl

/-- Witness for C5: the two-file aggregation returns normally. -/
theorem aggregator_tolerates_failures_witness :
    ∃ rows, get_all_logs_in_parent demoFs
        [(chars ".", chars "good.adi"), (chars ".", chars "bad.adi")]
      = Except.ok rows :=
  aggregator_tolerates_failures.2.1 demoFs
    [(chars ".", chars "good.adi"), (chars ".", chars "bad.adi")] (by decide)

/-- C6: the aggregator selects a file exactly when its name ends in the
literal suffix `.adi` or the literal suffix `.ADI` (case-sensitive on
those two variants); an unselected file is skipped entirely.
`log.adi` and `log.ADI` are selected, `log.txt` and `log.Adi` are
not. -/
theorem adi_suffix_selection :
    (∀ name : Str, selectsFile name = true ↔
        (chars ".adi" <:+ name ∨ chars ".ADI" <:+ name))
    ∧ (∀ (fs : Str → Option (List Str)) (root name : Str) (rest : List (Str × Str)),
        selectsFile name = false →
        get_all_logs_in_parent fs ((root, name) :: rest) = get_all_logs_in_parent fs rest)
    ∧ selectsFile (chars "log.adi") = true ∧ selectsFile (chars "log.ADI") = true
    ∧ selectsFile (chars "log.txt") = false ∧ selectsFile (chars "log.Adi") = false := by
  refine ⟨?_, ?_, by decide, by decide, by decide, by decide⟩
  · intro name
    unfold selectsFile
    rw [Bool.or_eq_true, endswith_iff, endswith_iff]
  · intro fs root name rest hs
    simp [get_all_logs_in_parent, hs]

/-- Witness for C6: a name with the lower-case suffix is selected. -/
theorem adi_suffix_selection_witness :
    selectsFile (chars "mydir.adi") = true :=
  (adi_suffix_selection.1 (chars "mydir.adi")).mpr (Or.inl (by decide))

lemma storeRows_full (rows : List Row) : ∀ n : Nat,
    (∀ r ∈ rows, r.operator.isSome = true ∧ r.date.isSome = true ∧ r.time.isSome = true
        ∧ r.call.isSome = true ∧ r.mode.isSome = true ∧ r.band.isSome = true) →
    storeRows rows n = some ((rows.map fullLine).flatten, n, []) := by
  induction rows with
  | nil => intro n _; rfl
  | cons r rest ih =>
    intro n h
    obtain ⟨h1, h2, h3, h4, h5, h6⟩ := h r (by simp)
    obtain ⟨op, hop⟩ := Option.isSome_iff_exists.mp h1
    obtain ⟨dt, hdt⟩ := Option.isSome_iff_exists.mp h2
    obtain ⟨tm, htm⟩ := Option.isSome_iff_exists.mp h3
    obtain ⟨cl, hcl⟩ := Option.isSome_iff_exists.mp h4
    obtain ⟨md, hmd⟩ := Option.isSome_iff_exists.mp h5
    obtain ⟨bd, hbd⟩ := Option.isSome_iff_exists.mp h6
    have hpr : processRow r n = some (fullLine r, n, []) := by
      simp [processRow, fullLine, hop, hdt, htm, hcl, hmd, hbd]
    simp [storeRows, hpr, ih n (fun x hx => h x (by simp [hx]))]

/-- C7: for a Dataset whose records all carry the six fields, CSV export
writes exactly the fixed header line `date, time, operator, band, mode,
call` followed by one line per record in Dataset order, the six field
values separated by a comma and a tab in the order date, time, operator,
band, mode, call; the fault counter stays 0 and nothing is reported. -/
theorem csv_export_format (rows : List Row)
    (h : ∀ r ∈ rows, r.operator.isSome = true ∧ r.date.isSome = true
        ∧ r.time.isSome = true ∧ r.call.isSome = true ∧ r.mode.isSome = true
        ∧ r.band.isSome = true) :
    store_to_csv rows
      = some (chars "date, time, operator, band, mode, call\n"
                ++ (rows.map fullLine).flatten, 0, []) := by
  simp [store_to_csv, storeRows_full rows 0 h]

/-- Witness for C7: the one-record fully-populated Dataset of the claim
produces exactly the header and the record line
`20230101,\t1200,\tOP1,\t20M,\tCW,\tW1AW`. -/
theorem csv_export_format_witness :
    store_to_csv [Row.mk (some (chars "OP1")) (some (chars "20230101"))
        (some (chars "1200")) (some (chars "W1AW")) (some (chars "CW"))
        (some (chars "20M")) [] (chars "a.adi")]
      = some (chars "date, time, operator, band, mode, call\n"
                ++ chars "20230101,\t1200,\tOP1,\t20M,\tCW,\tW1AW\n", 0, []) := by
  have h := csv_export_format [Row.mk (some (chars "OP1")) (some (chars "20230101"))
      (some (chars "1200")) (some (chars "W1AW")) (some (chars "CW"))
      (some (chars "20M")) [] (chars "a.adi")] (by decide)
  simpa using h

/-- C8 counterexample: a record missing the operator is substituted with
the literal `Uknown` (not `Unknown`); a record missing the band is
reported as lacking `call` (not naming the actual column); and a record
missing the time is not substituted at all — the export raises. -/
theorem csv_substitution_cex :
    store_to_csv [Row.mk none (some (chars "20230101")) (some (chars "1200"))
        (some (chars "W1AW")) (some (chars "CW")) (some (chars "20M")) []
        (chars "a.adi")]
      = some (chars "date, time, operator, band, mode, call\n"
                ++ chars "20230101,\t1200,\tUknown,\t20M,\tCW,\tW1AW\n", 1,
              [CsvMsg.mk 1 (chars "a.adi") (chars "operator")])
    ∧ chars "Uknown" ≠ chars "Unknown"
    ∧ store_to_csv [Row.mk (some (chars "OP1")) (some (chars "20230101"))
        (some (chars "1200")) (some (chars "W1AW")) (some (chars "CW")) none []
        (chars "a.adi")]
      = some (chars "date, time, operator, band, mode, call\n"
                ++ chars "20230101,\t1200,\tOP1,\tUnknown,\tCW,\tW1AW\n", 1,
              [CsvMsg.mk 1 (chars "a.adi") (chars "call")])
    ∧ chars "call" ≠ chars "band"
    ∧ store_to_csv [Row.mk (some (chars "OP1")) (some (chars "20230101")) none
        (some (chars "W1AW")) (some (chars "CW")) (some (chars "20M")) []
        (chars "a.adi")]
      = none :=
  ⟨by decide, by decide, by decide, by decide, by decide⟩

/-- C8 amended: during CSV export a missing date, band, mode or call is
substituted with `Unknown` and a missing operator with `Uknown`; a
missing time is not substituted — the export raises on such a record;
each substitution increments the fault counter exactly once and is
reported with the running count and the filename, the reported word
naming the column for operator, mode and call but being the literal
`call` for band and date; in particular a record missing only `CALL`
gets `Unknown` in the call column with the counter incremented exactly
once for that record. -/
theorem csv_substitution_amended (d t op bd md cl fn : Str) (n0 : Nat) :
    (processRow (Row.mk (some op) (some d) (some t) none (some md) (some bd) [] fn) n0
      = some (d ++ chars ",\t" ++ t ++ chars ",\t" ++ op ++ chars ",\t" ++ bd
                ++ chars ",\t" ++ md ++ chars ",\t" ++ chars "Unknown" ++ chars "\n",
              n0 + 1, [CsvMsg.mk (n0 + 1) fn (chars "call")]))
    ∧ (processRow (Row.mk none (some d) (some t) (some cl) (some md) (some bd) [] fn) n0
      = some (d ++ chars ",\t" ++ t ++ chars ",\t" ++ chars "Uknown" ++ chars ",\t" ++ bd
                ++ chars ",\t" ++ md ++ chars ",\t" ++ cl ++ chars "\n",
              n0 + 1, [CsvMsg.mk (n0 + 1) fn (chars "operator")]))
    ∧ (processRow (Row.mk (some op) (some d) (some t) (some cl) (some md) none [] fn) n0
      = some (d ++ chars ",\t" ++ t ++ chars ",\t" ++ op ++ chars ",\t" ++ chars "Unknown"
                ++ chars ",\t" ++ md ++ chars ",\t" ++ cl ++ chars "\n",
              n0 + 1, [CsvMsg.mk (n0 + 1) fn (chars "call")]))
    ∧ (processRow (Row.mk (some op) none (some t) (some cl) (some md) (some bd) [] fn) n0
      = some (chars "Unknown" ++ chars ",\t" ++ t ++ chars ",\t" ++ op ++ chars ",\t" ++ bd
                ++ chars ",\t" ++ md ++ chars ",\t" ++ cl ++ chars "\n",
              n0 + 1, [CsvMsg.mk (n0 + 1) fn (chars "call")]))
    ∧ (processRow (Row.mk (some op) (some d) (some t) (some cl) none (some bd) [] fn) n0
      = some (d ++ chars ",\t" ++ t ++ chars ",\t" ++ op ++ chars ",\t" ++ bd
                ++ chars ",\t" ++ chars "Unknown" ++ chars ",\t" ++ cl ++ chars "\n",
              n0 + 1, [CsvMsg.mk (n0 + 1) fn (chars "mode")]))
    ∧ (processRow (Row.mk (some op) (some d) none (some cl) (some md) (some bd) [] fn) n0
      = none)
    ∧ (store_to_csv [Row.mk (some op) (some d) (some t) none (some md) (some bd) [] fn]
      = some (chars "date, time, operator, band, mode, call\n" ++ d ++ chars ",\t" ++ t
                ++ chars ",\t" ++ op ++ chars ",\t" ++ bd ++ chars ",\t" ++ md
                ++ chars ",\t" ++ chars "Unknown" ++ chars "\n",
              1, [CsvMsg.mk 1 fn (chars "call")])) := by
  refine ⟨?_, ?_, ?_, ?_, ?_, ?_, ?_⟩ <;>
    simp [processRow, store_to_csv, storeRows]
